import Mathlib

/-!
Verification of the EVE Frontier market-log aggregation engine
(`eve_frontier/services/market_log_parser.py`) and production-chain resolver
(`eve_frontier/services/production_service.py`) against their natural-language
specification.

Modelling conventions:
* Python `int` is `Int`; Python `float` and `decimal.Decimal` are modelled as
  exact rationals (`Rat`).  The numeric claims under scrutiny concern the
  algebraic formulas, not bit-level IEEE rounding.
* The CSV row parser is abstracted: a log file's readable content is a list of
  already-parsed order records (`Order`), matching what `parse_log_file`
  produces for well-formed rows.  An unreadable file (an `open`/read that
  raises `IOError`) is modelled as `content = none`.  Row-level malformed-field
  skipping is not load-bearing for any claim considered here.
* Python `dict` used as a deduplication map is modelled as an association list
  with Python's insertion semantics (update in place, insert at the end).
* The in-memory per-file parse cache is pure memoization of the pure function
  `parse_log_file`, hence not modelled separately.
-/

deriving instance DecidableEq for Except

/-- Python string `<`: lexicographic comparison of the code-point sequences,
with a proper prefix comparing smaller.  This is CPython's `str` ordering,
used by the deduplication test `order['issue_date'] > ...`. -/
def pyStrLtChars : List Char → List Char → Bool
  | [], [] => false
  | [], _ :: _ => true
  | _ :: _, [] => false
  | c :: cs, d :: ds => if c < d then true else if d < c then false else pyStrLtChars cs ds

/-- Python `a < b` on strings. -/
def pyStrLt (a b : String) : Bool := pyStrLtChars a.data b.data

/-- One parsed market order, as produced by `MarketLogParser.parse_log_file`
(the dictionary built at market_log_parser.py lines 149-164). -/
structure Order where
  price : Rat
  volume_remaining : Int
  type_id : Int
  range : Int
  order_id : Int
  volume_entered : Int
  min_volume : Int
  is_buy_order : Bool
  issue_date : String
  duration : Int
  station_id : Int
  region_id : Int
  solar_system_id : Int
  jumps : Option Int
deriving DecidableEq, Repr

/-- A market log file and its content.  `stem_parts` is the filename stem
(the part before `.txt`) pre-split on `-`, which is the only way the source
consumes the name (`file_path.stem.split("-")`); `content = none` models a
file whose `open`/read raises an I/O error; `content = some rows` models a
readable file whose data rows parse to `rows`. -/
structure LogFile where
  stem_parts : List String
  content : Option (List Order)
deriving DecidableEq, Repr

/-- `MarketLogParser.parse_log_file`: parse one log file.  The enclosing
`try/except` (market_log_parser.py lines 143-178) catches any I/O error and
returns the empty order list. -/
def parse_log_file (f : LogFile) : List Order :=
  match f.content with
  | some rows => rows
  | none => []

/-- Lookup in an insertion-ordered association map (Python `dict` read). -/
def lookupOrder : List (Int × Order) → Int → Option Order
  | [], _ => none
  | (k, v) :: rest, key => if k = key then some v else lookupOrder rest key

/-- Write to an insertion-ordered association map (Python `dict` write):
an existing key is updated in place, a new key is appended at the end. -/
def updateOrder : List (Int × Order) → Int → Order → List (Int × Order)
  | [], key, v => [(key, v)]
  | (k, w) :: rest, key, v =>
      if k = key then (k, v) :: rest else (k, w) :: updateOrder rest key v

/-- One step of the deduplication loop shared by `parse_logs_for_item`
(lines 205-213) and `parse_logs_for_type_id` (lines 255-264): keep the most
recent version of each order, where "more recent" is Python string `>` on
`issue_date` (lexicographic). -/
def dedup_step (m : List (Int × Order)) (o : Order) : List (Int × Order) :=
  match lookupOrder m o.order_id with
  | none => updateOrder m o.order_id o
  | some existing =>
      if pyStrLt existing.issue_date o.issue_date then updateOrder m o.order_id o else m

/-- The full deduplication pass: fold the order stream into the map and read
back the values (`list(order_map.values())`). -/
def dedup_orders (orders : List Order) : List Order :=
  (orders.foldl dedup_step []).map Prod.snd

/-- `_extract_type_ids_from_file`: collect the distinct positive `typeID`
values found in the first `limit` (default 5) data rows; an unreadable file
contributes nothing (the inner `try/except` at lines 108-119). The Python
`set` is modelled as the first-occurrence list of distinct values. -/
def file_type_ids (f : LogFile) : List Int :=
  match f.content with
  | none => []
  | some rows =>
      (((rows.take 5).map (fun o => o.type_id)).filter (fun t => 0 < t)).foldl
        (fun acc t => if t ∈ acc then acc else acc ++ [t]) []

/-- Append a file under a key of the `_type_id_to_files` index
(`defaultdict(list)` append). -/
def indexAppend : List (Int × List LogFile) → Int → LogFile → List (Int × List LogFile)
  | [], tid, f => [(tid, [f])]
  | (k, l) :: rest, tid, f =>
      if k = tid then (k, l ++ [f]) :: rest else (k, l) :: indexAppend rest tid f

/-- Lookup in the `_type_id_to_files` index. -/
def lookupFiles : List (Int × List LogFile) → Int → Option (List LogFile)
  | [], _ => none
  | (k, l) :: rest, tid => if k = tid then some l else lookupFiles rest tid

/-- The body of the type-id loop of `get_available_items` (lines 75-88),
restricted to its effect on `(seen_type_ids, _type_id_to_files)`: a type id
already seen is skipped (`continue`), otherwise it is marked seen and file
`f` is appended under it in the index. -/
def register_id (f : LogFile) (a : List Int × List (Int × List LogFile)) (tid : Int) :
    List Int × List (Int × List LogFile) :=
  if tid ∈ a.1 then a else (tid :: a.1, indexAppend a.2 tid f)

/-- Processing of one file by `get_available_items` (lines 57-88), restricted
to its effect on `(seen_type_ids, _type_id_to_files)`: skip files whose stem
has fewer than two hyphen-separated parts, then register each extracted type
id not seen before. -/
def index_file (acc : List Int × List (Int × List LogFile)) (f : LogFile) :
    List Int × List (Int × List LogFile) :=
  if f.stem_parts.length < 2 then acc
  else (file_type_ids f).foldl (register_id f) acc

/-- The `_type_id_to_files` index as built by one run of
`get_available_items` over the log directory (starting from the empty index
of a fresh `MarketLogParser`). -/
def build_type_id_index (dir : List LogFile) : List (Int × List LogFile) :=
  (dir.foldl index_file ([], [])).2

/-- Whether `get_available_items` would register `tid` from file `f`: the
filename has at least two hyphen-separated parts and `tid` is among the
positive type ids of the first five rows. -/
def file_indexes (tid : Int) (f : LogFile) : Bool :=
  !(f.stem_parts.length < 2 : Bool) && (file_type_ids f).contains tid

/-- The fallback whole-directory scan of `parse_logs_for_type_id`
(lines 237-252).  Each file is opened directly with no `try/except`: an
unreadable file raises, modelled as `Except.error ()`.  A readable file is
selected iff some row carries the requested type id. -/
def fallback_scan : List LogFile → Int → Except Unit (List LogFile)
  | [], _ => .ok []
  | f :: rest, tid =>
      match f.content with
      | none => .error ()
      | some rows =>
          match fallback_scan rest tid with
          | .error e => .error e
          | .ok fs => .ok (if rows.any (fun o => o.type_id == tid) then f :: fs else fs)

/-- `MarketLogParser.parse_logs_for_type_id` (lines 221-270): select the
indexed file list when the index has a non-empty entry for the type id,
otherwise fall back to scanning the whole directory; then parse each selected
file (via `parse_log_file`, which catches its own I/O errors), keep the rows
with the requested type id, and deduplicate by order id keeping the latest
`issue_date`.  The index append performed by the fallback only affects later
calls and is not part of the returned value. -/
def parse_logs_for_type_id (index : List (Int × List LogFile)) (dir : List LogFile)
    (type_id : Int) : Except Unit (List Order) :=
  let selected : Except Unit (List LogFile) :=
    match lookupFiles index type_id with
    | some fs => if fs.isEmpty then fallback_scan dir type_id else .ok fs
    | none => fallback_scan dir type_id
  match selected with
  | .error e => .error e
  | .ok log_files =>
      .ok (dedup_orders (log_files.flatMap
        (fun f => (parse_log_file f).filter (fun o => o.type_id == type_id))))

/-!
## Production chain resolver (`production_service.py`)
-/

/-- Row of the `items` table (`models/item.py`), the fields the resolver reads. -/
structure Item where
  id : Int
  name : String
deriving DecidableEq, Repr

/-- Row of the `blueprints` table, the fields the resolver reads. -/
structure Blueprint where
  id : Int
  name : String
deriving DecidableEq, Repr

/-- Row of the `blueprint_activities` table. -/
structure BlueprintActivity where
  id : Int
  blueprint_id : Int
  activity_name : String
  time : Int
deriving DecidableEq, Repr

/-- Row of the `blueprint_materials` table. -/
structure BlueprintMaterial where
  blueprint_id : Int
  material_id : Int
  quantity : Int
deriving DecidableEq, Repr

/-- Row of the `blueprint_products` table. -/
structure BlueprintProduct where
  blueprint_id : Int
  product_id : Int
deriving DecidableEq, Repr

/-- The buy/sell price signal `MarketService.get_market_statistics` returns
for an item.  That method always returns a statistics dictionary with numeric
`buy_price`/`sell_price` entries (defaulting to 0 and catching its own
exceptions), so it is modelled as a total function in `Db`. -/
structure MarketStats where
  buy_price : Rat
  sell_price : Rat
deriving DecidableEq, Repr

/-- The relational catalog the resolver queries through its database session,
together with the market-statistics oracle. -/
structure Db where
  items : List Item
  blueprints : List Blueprint
  blueprint_activities : List BlueprintActivity
  blueprint_materials : List BlueprintMaterial
  blueprint_products : List BlueprintProduct
  market_stats : Int → MarketStats

/-- `ProductionChainNode` (production_service.py lines 26-98).  In every node
the resolver constructs, `buy_price`, `sell_price` and `production_cost` are
set to concrete decimal values, so those fields are plain rationals here;
`time_required` is `None` on market leaves. -/
inductive ProductionChainNode where
  | mk
      (item_id : Int) (item_name : String) (quantity : Int)
      (blueprint_id : Option Int) (activity_id : Option Int)
      (activity_name : Option String)
      (materials : List ProductionChainNode)
      (buy_price : Rat) (sell_price : Rat) (production_cost : Rat)
      (time_required : Option Rat)

def ProductionChainNode.item_id : ProductionChainNode → Int
  | .mk v _ _ _ _ _ _ _ _ _ _ => v

def ProductionChainNode.item_name : ProductionChainNode → String
  | .mk _ v _ _ _ _ _ _ _ _ _ => v

def ProductionChainNode.quantity : ProductionChainNode → Int
  | .mk _ _ v _ _ _ _ _ _ _ _ => v

def ProductionChainNode.blueprint_id : ProductionChainNode → Option Int
  | .mk _ _ _ v _ _ _ _ _ _ _ => v

def ProductionChainNode.activity_id : ProductionChainNode → Option Int
  | .mk _ _ _ _ v _ _ _ _ _ _ => v

def ProductionChainNode.activity_name : ProductionChainNode → Option String
  | .mk _ _ _ _ _ v _ _ _ _ _ => v

def ProductionChainNode.materials : ProductionChainNode → List ProductionChainNode
  | .mk _ _ _ _ _ _ v _ _ _ _ => v

def ProductionChainNode.buy_price : ProductionChainNode → Rat
  | .mk _ _ _ _ _ _ _ v _ _ _ => v

def ProductionChainNode.sell_price : ProductionChainNode → Rat
  | .mk _ _ _ _ _ _ _ _ v _ _ => v

def ProductionChainNode.production_cost : ProductionChainNode → Rat
  | .mk _ _ _ _ _ _ _ _ _ v _ => v

def ProductionChainNode.time_required : ProductionChainNode → Option Rat
  | .mk _ _ _ _ _ _ _ _ _ _ v => v

/-- Python `int()` on a rational value: truncation toward zero. -/
def pyInt (q : Rat) : Int := if 0 ≤ q then ⌊q⌋ else ⌈q⌉

/-- Python `x or y` on the decimal fields of resolver output nodes (which are
never `None`): `x` unless it is zero (falsy), else `y`. -/
def pyOrRat (a b : Rat) : Rat := if a == 0 then b else a

/-- Python `set.add` on the visited set, modelled by membership. -/
def insertItem (s : List Int) (i : Int) : List Int := if i ∈ s then s else i :: s

/-- `db.query(Item).filter(Item.id == item_id).first()`: first item row with
the given id. -/
def find_item : List Item → Int → Option Item
  | [], _ => none
  | it :: rest, i => if it.id = i then some it else find_item rest i

/-- Number of `BlueprintProduct` rows for a product
(`.filter(BlueprintProduct.product_id == product_id).count()`). -/
def count_products : List BlueprintProduct → Int → Nat
  | [], _ => 0
  | bp :: rest, i => (if bp.product_id = i then 1 else 0) + count_products rest i

/-- First `BlueprintProduct` row for a product. -/
def find_product : List BlueprintProduct → Int → Option BlueprintProduct
  | [], _ => none
  | bp :: rest, i => if bp.product_id = i then some bp else find_product rest i

/-- First `Blueprint` row with the given id. -/
def find_blueprint_row : List Blueprint → Int → Option Blueprint
  | [], _ => none
  | b :: rest, i => if b.id = i then some b else find_blueprint_row rest i

/-- First activity row of the blueprint named `manufacturing`. -/
def find_activity_row : List BlueprintActivity → Int → Option BlueprintActivity
  | [], _ => none
  | a :: rest, i =>
      if a.blueprint_id = i ∧ a.activity_name = "manufacturing" then some a
      else find_activity_row rest i

/-- All material rows of a blueprint. -/
def filter_materials : List BlueprintMaterial → Int → List BlueprintMaterial
  | [], _ => []
  | m :: rest, i =>
      if m.blueprint_id = i then m :: filter_materials rest i else filter_materials rest i

/-- `ProductionService._find_manufacturing_blueprint` (lines 263-300): count
the `BlueprintProduct` rows for the product, and if any exist take the
blueprint joined to the first such row (the SQL join's unspecified first row
is modelled as the first matching product row joined to its blueprint). -/
def find_manufacturing_blueprint (db : Db) (product_id : Int) : Option Blueprint :=
  if count_products db.blueprint_products product_id = 0 then none
  else
    match find_product db.blueprint_products product_id with
    | none => none
    | some bp => find_blueprint_row db.blueprints bp.blueprint_id

/-- `ProductionService._get_manufacturing_activity` (lines 302-320). -/
def get_manufacturing_activity (db : Db) (blueprint_id : Int) : Option BlueprintActivity :=
  find_activity_row db.blueprint_activities blueprint_id

/-- `ProductionService._get_blueprint_materials` (lines 322-344); note the
source filters by blueprint id only and ignores its `activity_id` argument. -/
def get_blueprint_materials (db : Db) (blueprint_id : Int) : List BlueprintMaterial :=
  filter_materials db.blueprint_materials blueprint_id

/-- The material-efficiency factor `max(0.9, 1.0 - 0.02 * me_level)`
(line 208). -/
def efficiency_factor (me_level : Int) : Rat :=
  max (9/10) (1 - (1/50) * (me_level : Rat))

/-- The adjusted per-run material quantity (lines 203-209): material
efficiency is applied, through Python `int()`, only when `me_level > 0`. -/
def adjusted_quantity (base_quantity me_level : Int) : Int :=
  if 0 < me_level then pyInt ((base_quantity : Rat) * efficiency_factor me_level)
  else base_quantity

/-- The material's total required quantity (line 212): the adjusted per-run
quantity times the parent's requested quantity. -/
def total_quantity (base_quantity me_level quantity : Int) : Int :=
  adjusted_quantity base_quantity me_level * quantity

/-- The adjusted activity duration (line 190):
`base_time * (1 - min(0.2 * te_level, 0.8)) * (1 - facility_bonus)`. -/
def adjusted_time (base_time te_level : Int) (facility_bonus : Rat) : Rat :=
  (base_time : Rat) * (1 - min ((1/5) * (te_level : Rat)) (4/5)) * (1 - facility_bonus)

/-- The market-priced leaf returned at lines 167-179 when no manufacturing
blueprint exists or the depth bound is exhausted: no materials, prices from
the market statistics, production cost equal to the market buy price, no
time. -/
def market_node (db : Db) (item_id : Int) (item_name : String) (quantity : Int) :
    ProductionChainNode :=
  .mk item_id item_name quantity none none none []
    (db.market_stats item_id).buy_price (db.market_stats item_id).sell_price
    (db.market_stats item_id).buy_price none

/-- `ProductionService.get_manufacturing_details` (lines 113-261).  Control
flow of the source, in order: unknown item yields `None`; a missing blueprint
or an exhausted depth bound yields a market leaf; a blueprint without a
manufacturing activity yields `None`; otherwise the material list is expanded
recursively at `max_depth - 1`, each recursion receiving a copy of the
visited set `ignore_items ∪ {item_id}` (the set is not updated inside the
material loop), skipped children and failed recursions contributing nothing;
the production cost is the rolled-up material cost (falling back, per
material, from `production_cost` to `buy_price` to 0 through Python `or`,
which treats zero as falsy), or `buy_price * quantity` when no material node
was produced, divided by `quantity` when positive. -/
def get_manufacturing_details (db : Db) (item_id : Int) (quantity : Int)
    (me_level : Int) (te_level : Int) (facility_bonus : Rat)
    (max_depth : Int) (ignore_items : List Int) : Option ProductionChainNode :=
  let processed_items := ignore_items
  match find_item db.items item_id with
  | none => none
  | some item =>
    match find_manufacturing_blueprint db item_id with
    | none => some (market_node db item_id item.name quantity)
    | some blueprint =>
      if _hd : max_depth ≤ 0 then some (market_node db item_id item.name quantity)
      else
        match get_manufacturing_activity db blueprint.id with
        | none => none
        | some manufacturing_activity =>
          let adj_time := adjusted_time manufacturing_activity.time te_level facility_bonus
          let materials_nodes : List ProductionChainNode :=
            if 0 < max_depth ∧ item_id ∉ processed_items then
              let processed2 := insertItem processed_items item_id
              (get_blueprint_materials db blueprint.id).filterMap
                (fun material =>
                  if material.material_id ∈ processed2 then none
                  else
                    get_manufacturing_details db material.material_id
                      (total_quantity material.quantity me_level quantity)
                      me_level te_level facility_bonus (max_depth - 1) processed2)
            else []
          let buy_price := (db.market_stats item_id).buy_price
          let sell_price := (db.market_stats item_id).sell_price
          let production_cost : Rat :=
            if materials_nodes.isEmpty then buy_price * (quantity : Rat)
            else materials_nodes.foldl
              (fun acc mn =>
                acc + pyOrRat mn.production_cost (pyOrRat mn.buy_price 0) * (mn.quantity : Rat))
              0
          some (ProductionChainNode.mk item_id item.name quantity (some blueprint.id)
            (some manufacturing_activity.id) (some manufacturing_activity.activity_name)
            materials_nodes buy_price sell_price
            (if 0 < quantity then production_cost / (quantity : Rat) else 0)
            (some adj_time))
termination_by max_depth.toNat
decreasing_by simp_wf; omega

mutual

/-- Height of a production chain tree (a single node has height 1). -/
def nodeHeight : ProductionChainNode → Nat
  | .mk _ _ _ _ _ _ materials _ _ _ _ => 1 + nodeHeightList materials

/-- Maximum height over a list of production chain trees. -/
def nodeHeightList : List ProductionChainNode → Nat
  | [] => 0
  | n :: ns => max (nodeHeight n) (nodeHeightList ns)

end

/-!
## Concrete instances used to witness and refute the claims
-/

/-- Order 555 for Tritanium (type id 34) at price 5.0, the older snapshot. -/
def tritOrder1 : Order :=
  ⟨5, 100, 34, -1, 555, 120, 1, false, "2025.03.11 100000", 90, 60000001, 10000001, 30000001, none⟩

/-- Order 555 for Tritanium (type id 34) at price 5.5 (the rational 11/2,
written as a normalized numerator/denominator pair), the newer snapshot. -/
def tritOrder2 : Order :=
  ⟨⟨11, 2, by decide, by decide⟩, 80, 34, -1, 555, 120, 1, false, "2025.03.12 100000",
    90, 60000001, 10000001, 30000001, none⟩

/-- The older Tritanium log file. -/
def tritFile1 : LogFile := ⟨["RGN", "Tritanium", "2025.03.11 100000"], some [tritOrder1]⟩

/-- The newer Tritanium log file. -/
def tritFile2 : LogFile := ⟨["RGN", "Tritanium", "2025.03.12 100000"], some [tritOrder2]⟩

/-- A log directory holding the two overlapping Tritanium snapshots. -/
def tritDir : List LogFile := [tritFile1, tritFile2]

/-- A well-formed Steel Plates order (type id 77). -/
def steelOrder : Order :=
  ⟨250, 40, 77, -1, 801, 40, 1, true, "2025.03.12 110000", 30, 60000002, 10000001, 30000002, some 3⟩

/-- A readable Steel Plates log file. -/
def steelFileOk : LogFile := ⟨["RGN", "Steel Plates", "2025.03.12 110000"], some [steelOrder]⟩

/-- A Steel Plates log file whose read raises an I/O error. -/
def steelFileBad : LogFile := ⟨["RGN", "Steel Plates", "2025.03.13 110000"], none⟩

/-- A log directory in which one file is unreadable. -/
def steelDir : List LogFile := [steelFileOk, steelFileBad]

/-- Order 700 for Pyerite (type id 35) at price 3, the older snapshot. -/
def pyeOrder1 : Order :=
  ⟨3, 500, 35, -1, 700, 500, 1, false, "2025.03.11 090000", 90, 60000003, 10000001, 30000003, none⟩

/-- Order 700 for Pyerite (type id 35) at price 4, the newer snapshot. -/
def pyeOrder2 : Order :=
  ⟨4, 450, 35, -1, 700, 500, 1, false, "2025.03.12 090000", 90, 60000003, 10000001, 30000003, none⟩

/-- The older Pyerite log file (discovered first). -/
def pyeFile1 : LogFile := ⟨["RGN", "Pyerite", "2025.03.11 090000"], some [pyeOrder1]⟩

/-- The newer Pyerite log file (discovered second). -/
def pyeFile2 : LogFile := ⟨["RGN", "Pyerite", "2025.03.12 090000"], some [pyeOrder2]⟩

/-- A log directory in which type id 35 occurs in two files. -/
def pyeDir : List LogFile := [pyeFile1, pyeFile2]

/-- A catalog whose recipe graph has the cycle `CycleA → CycleB → CycleA`:
blueprint 10 manufactures item 1 from 3 of item 2, and blueprint 11
manufactures item 2 from 2 of item 1. -/
def cycDb : Db where
  items := [⟨1, "CycleA"⟩, ⟨2, "CycleB"⟩]
  blueprints := [⟨10, "CycleA Blueprint"⟩, ⟨11, "CycleB Blueprint"⟩]
  blueprint_activities :=
    [⟨100, 10, "manufacturing", 600⟩, ⟨101, 11, "manufacturing", 300⟩]
  blueprint_materials := [⟨10, 2, 3⟩, ⟨11, 1, 2⟩]
  blueprint_products := [⟨10, 1⟩, ⟨11, 2⟩]
  market_stats := fun _ => ⟨2, 3⟩

/-- The tree `get_manufacturing_details cycDb 1 1 0 0 0 5 []` produces: the
inner `CycleB` node is cut off by the visited set, so the cycle yields a
two-node tree. -/
def cycTreeB : ProductionChainNode :=
  .mk 2 "CycleB" 3 (some 11) (some 101) (some "manufacturing") [] 2 3 2 (some 300)

/-- The root of the resolved `CycleA` chain at depth 5. -/
def cycTreeA : ProductionChainNode :=
  .mk 1 "CycleA" 1 (some 10) (some 100) (some "manufacturing") [cycTreeB] 2 3 6 (some 600)

/-- A catalog with a manufacturable item (`Hull`, id 1, blueprint 20), used
to check the depth-0 behavior when a recipe exists. -/
def hullDb : Db where
  items := [⟨1, "Hull"⟩, ⟨2, "Plate"⟩]
  blueprints := [⟨20, "Hull Blueprint"⟩]
  blueprint_activities := [⟨200, 20, "manufacturing", 1200⟩]
  blueprint_materials := [⟨20, 2, 4⟩]
  blueprint_products := [⟨20, 1⟩]
  market_stats := fun i => if i = 1 then ⟨50, 70⟩ else ⟨5, 6⟩

/-- A three-level catalog `Root(1) ← 1×Mid(2) ← 1×Base(3)` in which the leaf
`Base` has market buy price 0 while the intermediate `Mid` has market buy
price 7: the rolled-up production cost of `Mid` is 0, which Python `or`
treats as falsy. -/
def rollupDb : Db where
  items := [⟨1, "Root"⟩, ⟨2, "Mid"⟩, ⟨3, "Base"⟩]
  blueprints := [⟨30, "Root Blueprint"⟩, ⟨31, "Mid Blueprint"⟩]
  blueprint_activities :=
    [⟨300, 30, "manufacturing", 60⟩, ⟨301, 31, "manufacturing", 60⟩]
  blueprint_materials := [⟨30, 2, 1⟩, ⟨31, 3, 1⟩]
  blueprint_products := [⟨30, 1⟩, ⟨31, 2⟩]
  market_stats := fun i => if i = 2 then ⟨7, 8⟩ else if i = 3 then ⟨0, 0⟩ else ⟨9, 12⟩

/-- A two-level catalog `Root(1) ← 2×MaterialA(2)` where the leaf has market
buy price 10, matching the cost-rollup example of the specification. -/
def rootDb : Db where
  items := [⟨1, "Root"⟩, ⟨2, "MaterialA"⟩]
  blueprints := [⟨40, "Root Blueprint"⟩]
  blueprint_activities := [⟨400, 40, "manufacturing", 100⟩]
  blueprint_materials := [⟨40, 2, 2⟩]
  blueprint_products := [⟨40, 1⟩]
  market_stats := fun i => if i = 2 then ⟨10, 11⟩ else ⟨25, 30⟩

/-- The leaf node for `MaterialA` in `rootDb` at total quantity 6. -/
def rootLeafA : ProductionChainNode :=
  .mk 2 "MaterialA" 6 none none none [] 10 11 10 none

/-- The tree `get_manufacturing_details rootDb 1 3 0 0 0 2 []` produces:
2 units of `MaterialA` per run, 3 runs, leaf buy price 10, rolled-up
production cost (10 * 6) / 3 = 20 per unit. -/
def rootTree : ProductionChainNode :=
  .mk 1 "Root" 3 (some 40) (some 400) (some "manufacturing") [rootLeafA] 25 30 20 (some 100)

/-- A catalog with a manufacturable `Gadget` (id 1), used for the
negative-input behavior of the resolver. -/
def gadgetDb : Db where
  items := [⟨1, "Gadget"⟩, ⟨2, "Part"⟩]
  blueprints := [⟨50, "Gadget Blueprint"⟩]
  blueprint_activities := [⟨500, 50, "manufacturing", 30⟩]
  blueprint_materials := [⟨50, 2, 1⟩]
  blueprint_products := [⟨50, 1⟩]
  market_stats := fun i => if i = 1 then ⟨8, 9⟩ else ⟨1, 2⟩

/-- A catalog in which blueprint 60 for `Assembly` (id 1) lists the same
material `Widget` (id 2) twice as direct sibling materials, and `Widget`
itself is manufactured from `Scrap` (id 3). -/
def dupDb : Db where
  items := [⟨1, "Assembly"⟩, ⟨2, "Widget"⟩, ⟨3, "Scrap"⟩]
  blueprints := [⟨60, "Assembly Blueprint"⟩, ⟨61, "Widget Blueprint"⟩]
  blueprint_activities :=
    [⟨600, 60, "manufacturing", 60⟩, ⟨601, 61, "manufacturing", 60⟩]
  blueprint_materials := [⟨60, 2, 1⟩, ⟨60, 2, 1⟩, ⟨61, 3, 1⟩]
  blueprint_products := [⟨60, 1⟩, ⟨61, 2⟩]
  market_stats := fun _ => ⟨4, 5⟩

/-!
## Theorems
-/

theorem pyStrLtChars_asymm : ∀ a b : List Char,
    pyStrLtChars a b = true → pyStrLtChars b a = false := by
  intro a
  induction a with
  | nil => intro b h; cases b <;> simp [pyStrLtChars] at h ⊢
  | cons c cs ih =>
      intro b h
      cases b with
      | nil => simp [pyStrLtChars] at h
      | cons d ds =>
          simp only [pyStrLtChars] at h ⊢
          by_cases hcd : c < d
          · have hdc : ¬ d < c := lt_asymm hcd
            simp [hcd, hdc]
          · by_cases hdc : d < c
            · simp [hcd, hdc] at h
            · simp [hcd, hdc] at h ⊢
              exact ih ds h

/-- Asymmetry of the Python string order: if `a < b` then not `b < a`. -/
theorem pyStrLt_asymm (a b : String) (h : pyStrLt a b = true) : pyStrLt b a = false :=
  pyStrLtChars_asymm a.data b.data h

/-- C1.  Latest-wins deduplication: for two order records sharing `order_id`
with the second one later (Python string comparison on `issue_date`), the
deduplication pass used by `parse_logs_for_type_id`/`parse_logs_for_item`
retains exactly the later record, in whichever order the two records are
processed; and on a log directory holding two overlapping Tritanium
snapshots (order 555 at price 5.0, then at price 5.5 with a later timestamp),
`parse_logs_for_type_id 34` returns exactly the single order 555 at
price 5.5 (`tritOrder2`). -/
theorem claim_C1_latest_wins (r1 r2 : Order) (hid : r1.order_id = r2.order_id)
    (hlt : pyStrLt r1.issue_date r2.issue_date = true) :
    dedup_orders [r1, r2] = [r2] ∧ dedup_orders [r2, r1] = [r2] ∧
    parse_logs_for_type_id [] tritDir 34 = .ok [tritOrder2] := by
  refine ⟨?_, ?_, by decide⟩
  · simp [dedup_orders, dedup_step, lookupOrder, updateOrder, hid, hlt]
  · simp [dedup_orders, dedup_step, lookupOrder, updateOrder, hid,
      pyStrLt_asymm _ _ hlt]

/-- Witness for C1 at the two concrete Tritanium orders. -/
theorem claim_C1_latest_wins_witness :
    dedup_orders [tritOrder1, tritOrder2] = [tritOrder2] ∧
    dedup_orders [tritOrder2, tritOrder1] = [tritOrder2] ∧
    parse_logs_for_type_id [] tritDir 34 = .ok [tritOrder2] :=
  claim_C1_latest_wins tritOrder1 tritOrder2 (by decide) (by decide)

/-- An unreadable file anywhere in the directory makes the fallback scan of
`parse_logs_for_type_id` raise (the `open` at market_log_parser.py line 241
has no surrounding `try`). -/
theorem fallback_scan_error (dir : List LogFile) (tid : Int) (f : LogFile)
    (hmem : f ∈ dir) (hbad : f.content = none) :
    fallback_scan dir tid = .error () := by
  induction dir with
  | nil => cases hmem
  | cons g rest ih =>
      rcases List.mem_cons.mp hmem with hfg | hmem'
      · subst hfg
        simp only [fallback_scan, hbad]
      · cases hg : g.content with
        | none => simp only [fallback_scan, hg]
        | some rows => simp only [fallback_scan, hg, ih hmem']

/-- C9 (corrected).  `parse_log_file` catches its own I/O error and
contributes no orders, and a `parse_logs_for_type_id` call that is served by
the file index parses every selected file through `parse_log_file` and
therefore never propagates an I/O error, whatever unreadable files the
directory holds; but when the call has no index entry and takes the fallback
whole-directory scan, a single unreadable file makes the whole call raise:
the error does propagate out and aborts the batch, contrary to the claim. -/
theorem claim_C9_io_errors (index : List (Int × List LogFile)) (dir : List LogFile)
    (tid : Int) (fs : List LogFile) (f : LogFile)
    (hix : lookupFiles index tid = some fs) (hne : fs ≠ [])
    (hmem : f ∈ dir) (hbad : f.content = none) :
    parse_log_file f = [] ∧
    parse_logs_for_type_id index dir tid =
      .ok (dedup_orders (fs.flatMap
        (fun g => (parse_log_file g).filter (fun o => o.type_id == tid)))) ∧
    parse_logs_for_type_id [] dir tid = .error () := by
  refine ⟨?_, ?_, ?_⟩
  · simp [parse_log_file, hbad]
  · have hempty : fs.isEmpty = false := by
      cases fs with
      | nil => exact absurd rfl hne
      | cons a l => rfl
    simp [parse_logs_for_type_id, hix, hempty]
  · simp only [parse_logs_for_type_id, lookupFiles, fallback_scan_error dir tid f hmem hbad]

/-- Witness for C9 on the Steel Plates directory: with an index entry the
unreadable file is harmless, without one the same call errors. -/
theorem claim_C9_io_errors_witness :
    parse_log_file steelFileBad = [] ∧
    parse_logs_for_type_id [(77, [steelFileOk])] steelDir 77 =
      .ok (dedup_orders ([steelFileOk].flatMap
        (fun g => (parse_log_file g).filter (fun o => o.type_id == 77)))) ∧
    parse_logs_for_type_id [] steelDir 77 = .error () :=
  claim_C9_io_errors [(77, [steelFileOk])] steelDir 77 [steelFileOk] steelFileBad
    (by decide) (by decide) (by decide) (by decide)

/-- Counterexample to C9 as stated: the directory holds a readable file whose
orders match and an unreadable one; the fallback scan propagates the I/O
error, so the whole call aborts with an error instead of returning the good
file's orders - removing the unreadable file makes the same call succeed. -/
theorem claim_C9_counterexample :
    parse_logs_for_type_id [] steelDir 77 = Except.error () ∧
    steelFileOk ∈ steelDir ∧
    parse_logs_for_type_id [] [steelFileOk] 77 = .ok [steelOrder] := by
  exact ⟨by decide, by decide, by decide⟩

/-- C5 (corrected).  The total material quantity is
`floor(base * max(0.9, 1 - 0.02*me)) * parent_quantity`, with the floor
taken before the multiplication by the parent quantity; consequently it is
never below `floor(0.9 * base) * parent_quantity`, but it can fall below
`floor(0.9 * base * parent_quantity)`. -/
theorem claim_C5_amended (base_quantity me_level quantity : Int)
    (hb : 0 ≤ base_quantity) (hme0 : 0 ≤ me_level) (hme : me_level ≤ 10) :
    total_quantity base_quantity me_level quantity =
      ⌊(base_quantity : Rat) * max (9/10) (1 - (1/50) * (me_level : Rat))⌋ * quantity ∧
    (0 ≤ quantity →
      ⌊(9/10 : Rat) * (base_quantity : Rat)⌋ * quantity ≤
        total_quantity base_quantity me_level quantity) := by
  have hfac : (9/10 : Rat) ≤ max (9/10) (1 - (1/50) * (me_level : Rat)) := le_max_left _ _
  have hbq : (0 : Rat) ≤ (base_quantity : Rat) := by exact_mod_cast hb
  have heq : total_quantity base_quantity me_level quantity =
      ⌊(base_quantity : Rat) * max (9/10) (1 - (1/50) * (me_level : Rat))⌋ * quantity := by
    unfold total_quantity adjusted_quantity
    by_cases hpos : 0 < me_level
    · rw [if_pos hpos]
      unfold pyInt efficiency_factor
      rw [if_pos (mul_nonneg hbq (le_trans (by norm_num) hfac))]
    · have h0 : me_level = 0 := by omega
      subst h0
      rw [if_neg hpos]
      norm_num
  refine ⟨heq, fun hq => ?_⟩
  rw [heq]
  have hle : ⌊(9/10 : Rat) * (base_quantity : Rat)⌋ ≤
      ⌊(base_quantity : Rat) * max (9/10) (1 - (1/50) * (me_level : Rat))⌋ := by
    apply Int.floor_le_floor
    calc (9/10 : Rat) * (base_quantity : Rat)
        = (base_quantity : Rat) * (9/10) := mul_comm _ _
      _ ≤ (base_quantity : Rat) * max (9/10) (1 - (1/50) * (me_level : Rat)) :=
          mul_le_mul_of_nonneg_left hfac hbq
  exact mul_le_mul_of_nonneg_right hle hq

/-- Witness for C5 (amended) at base 1, ME 5, parent quantity 10. -/
theorem claim_C5_amended_witness :
    total_quantity 1 5 10 =
      ⌊(1 : Rat) * max (9/10) (1 - (1/50) * ((5 : Int) : Rat))⌋ * 10 ∧
    (0 ≤ (10 : Int) →
      ⌊(9/10 : Rat) * ((1 : Int) : Rat)⌋ * 10 ≤ total_quantity 1 5 10) :=
  claim_C5_amended 1 5 10 (by norm_num) (by norm_num) (by norm_num)

/-- Counterexample to C5 as stated: with base quantity 1, ME level 5 and
parent quantity 10, the code computes `int(1 * 0.9) * 10 = 0`, which is
strictly below `0.9 * 1 * 10` rounded down (= 9). -/
theorem claim_C5_counterexample :
    total_quantity 1 5 10 = 0 ∧
    ⌊(9/10 : Rat) * ((1 : Rat) * (10 : Rat))⌋ = 9 ∧
    ¬ (⌊(9/10 : Rat) * ((1 : Rat) * (10 : Rat))⌋ ≤ total_quantity 1 5 10) := by
  have h1 : total_quantity 1 5 10 = 0 := by
    unfold total_quantity adjusted_quantity efficiency_factor pyInt
    norm_num
  have h2 : ⌊(9/10 : Rat) * ((1 : Rat) * (10 : Rat))⌋ = 9 := by
    rw [show (9/10 : Rat) * ((1 : Rat) * (10 : Rat)) = ((9 : Int) : Rat) by norm_num]
    exact Int.floor_intCast 9
  refine ⟨h1, h2, ?_⟩
  rw [h1, h2]
  norm_num

/-- C6.  The adjusted duration is
`base_time * (1 - min(0.2*te, 0.8)) * (1 - facility_bonus)`; the factor
contributed by time efficiency alone is at least 0.2 for every TE level in
[0, 20], so the whole duration is at least 20% of
`base_time * (1 - facility_bonus)`. -/
theorem claim_C6_time_cap (base_time te_level : Int) (facility_bonus : Rat)
    (hte0 : 0 ≤ te_level) (hte : te_level ≤ 20)
    (hfb0 : 0 ≤ facility_bonus) (hfb1 : facility_bonus ≤ 1) (hbt : 0 ≤ base_time) :
    adjusted_time base_time te_level facility_bonus =
      (base_time : Rat) * (1 - min ((1/5) * (te_level : Rat)) (4/5)) * (1 - facility_bonus) ∧
    (1/5 : Rat) ≤ 1 - min ((1/5) * (te_level : Rat)) (4/5) ∧
    (1/5 : Rat) * (base_time : Rat) * (1 - facility_bonus) ≤
      adjusted_time base_time te_level facility_bonus := by
  have hmin : min ((1/5) * (te_level : Rat)) (4/5) ≤ 4/5 := min_le_right _ _
  have hmult : (1/5 : Rat) ≤ 1 - min ((1/5) * (te_level : Rat)) (4/5) := by linarith
  refine ⟨rfl, hmult, ?_⟩
  unfold adjusted_time
  have hbt' : (0 : Rat) ≤ (base_time : Rat) := by exact_mod_cast hbt
  have hfb' : (0 : Rat) ≤ 1 - facility_bonus := by linarith
  have h1 : (1/5 : Rat) * (base_time : Rat) ≤
      (base_time : Rat) * (1 - min ((1/5) * (te_level : Rat)) (4/5)) := by
    calc (1/5 : Rat) * (base_time : Rat) = (base_time : Rat) * (1/5) := mul_comm _ _
      _ ≤ (base_time : Rat) * (1 - min ((1/5) * (te_level : Rat)) (4/5)) :=
          mul_le_mul_of_nonneg_left hmult hbt'
  exact mul_le_mul_of_nonneg_right h1 hfb'

/-- Witness for C6 at base time 600, TE 20, facility bonus 1/2. -/
theorem claim_C6_time_cap_witness :
    adjusted_time 600 20 (1/2) =
      ((600 : Int) : Rat) * (1 - min ((1/5) * ((20 : Int) : Rat)) (4/5)) * (1 - 1/2) ∧
    (1/5 : Rat) ≤ 1 - min ((1/5) * ((20 : Int) : Rat)) (4/5) ∧
    (1/5 : Rat) * ((600 : Int) : Rat) * (1 - 1/2) ≤ adjusted_time 600 20 (1/2) :=
  claim_C6_time_cap 600 20 (1/2) (by norm_num) (by norm_num) (by norm_num)
    (by norm_num) (by norm_num)

theorem lookupFiles_indexAppend_self (ix : List (Int × List LogFile)) (tid : Int)
    (f : LogFile) :
    lookupFiles (indexAppend ix tid f) tid =
      some ((lookupFiles ix tid).getD [] ++ [f]) := by
  induction ix with
  | nil => simp [indexAppend, lookupFiles]
  | cons p rest ih =>
      obtain ⟨k, l⟩ := p
      by_cases hk : k = tid
      · subst hk
        simp [indexAppend, lookupFiles]
      · simp [indexAppend, lookupFiles, hk, ih]

theorem lookupFiles_indexAppend_ne (ix : List (Int × List LogFile)) (tid : Int)
    (f : LogFile) (t : Int) (h : t ≠ tid) :
    lookupFiles (indexAppend ix tid f) t = lookupFiles ix t := by
  induction ix with
  | nil => simp [indexAppend, lookupFiles, Ne.symm h]
  | cons p rest ih =>
      obtain ⟨k, l⟩ := p
      by_cases hk : k = tid
      · subst hk
        simp [indexAppend, lookupFiles, Ne.symm h]
      · by_cases hkt : k = t
        · subst hkt
          simp [indexAppend, lookupFiles, hk]
        · simp [indexAppend, lookupFiles, hk, hkt, ih]

/-- Effect of registering the type ids of one file on the seen-set/index
accumulator: the seen-set/index correspondence is preserved, and a type id
gets the singleton entry `[f]` exactly when it was not seen before and occurs
in the id list; all other entries are untouched. -/
theorem register_fold (f : LogFile) (ids : List Int) :
    ∀ (seen : List Int) (ix : List (Int × List LogFile)),
      (∀ u : Int, u ∈ seen ↔ (lookupFiles ix u).isSome) →
      (∀ u : Int, u ∈ (ids.foldl (register_id f) (seen, ix)).1 ↔
        (lookupFiles (ids.foldl (register_id f) (seen, ix)).2 u).isSome) ∧
      ∀ t : Int, lookupFiles (ids.foldl (register_id f) (seen, ix)).2 t =
        if t ∉ seen ∧ t ∈ ids then some [f] else lookupFiles ix t := by
  induction ids with
  | nil =>
      intro seen ix hinv
      exact ⟨hinv, fun t => by simp⟩
  | cons id ids ih =>
      intro seen ix hinv
      simp only [List.foldl_cons]
      by_cases hid : id ∈ seen
      · rw [show register_id f (seen, ix) id = (seen, ix) by
          simp [register_id, hid]]
        obtain ⟨hinv2, hlook⟩ := ih seen ix hinv
        refine ⟨hinv2, fun t => ?_⟩
        rw [hlook t]
        by_cases hts : t ∈ seen
        · simp [hts]
        · have hne : t ≠ id := fun h => hts (h ▸ hid)
          simp [hts, hne]
      · rw [show register_id f (seen, ix) id = (id :: seen, indexAppend ix id f) by
          simp [register_id, hid]]
        have hinv' : ∀ u : Int, u ∈ id :: seen ↔
            (lookupFiles (indexAppend ix id f) u).isSome := by
          intro u
          by_cases hu : u = id
          · subst hu
            simp [lookupFiles_indexAppend_self]
          · simp [List.mem_cons, hu, lookupFiles_indexAppend_ne ix id f u hu, hinv u]
        obtain ⟨hinv2, hlook⟩ := ih (id :: seen) (indexAppend ix id f) hinv'
        refine ⟨hinv2, fun t => ?_⟩
        rw [hlook t]
        by_cases ht : t = id
        · subst ht
          have hnone : lookupFiles ix t = none := by
            cases hcase : lookupFiles ix t with
            | none => rfl
            | some l => exact absurd ((hinv t).mpr (by simp [hcase])) hid
          simp [lookupFiles_indexAppend_self, hnone, hid]
        · have h2 := lookupFiles_indexAppend_ne ix id f t ht
          by_cases hts : t ∈ seen
          · simp [List.mem_cons, hts, ht, h2]
          · simp [List.mem_cons, hts, ht, h2]

/-- Effect of one `get_available_items` file iteration on the index. -/
theorem index_file_lookup (acc : List Int × List (Int × List LogFile)) (f : LogFile)
    (hinv : ∀ u : Int, u ∈ acc.1 ↔ (lookupFiles acc.2 u).isSome) :
    (∀ u : Int, u ∈ (index_file acc f).1 ↔ (lookupFiles (index_file acc f).2 u).isSome) ∧
    ∀ t : Int, lookupFiles (index_file acc f).2 t =
      if t ∉ acc.1 ∧ file_indexes t f = true then some [f] else lookupFiles acc.2 t := by
  unfold index_file
  by_cases hname : f.stem_parts.length < 2
  · rw [if_pos hname]
    refine ⟨hinv, fun t => ?_⟩
    have : file_indexes t f = false := by
      simp [file_indexes, hname]
    simp [this]
  · rw [if_neg hname]
    obtain ⟨hinv2, hlook⟩ := register_fold f (file_type_ids f) acc.1 acc.2 hinv
    refine ⟨by simpa using hinv2, fun t => ?_⟩
    have := hlook t
    simp only [Prod.mk.eta] at this
    rw [this]
    have hcond : (t ∈ file_type_ids f) ↔ (file_indexes t f = true) := by
      simp [file_indexes, hname]
    by_cases hts : t ∈ acc.1
    · simp [hts]
    · by_cases hmem : t ∈ file_type_ids f
      · simp [hts, hmem, hcond.mp hmem]
      · have : ¬ file_indexes t f = true := fun hc => hmem (hcond.mpr hc)
        simp [hts, hmem, this]

/-- Folding `get_available_items` over the remaining directory: an id already
indexed keeps its entry; a fresh id ends up mapped to `[g]` for the first
remaining file `g` that indexes it. -/
theorem build_fold_lookup (dirRest : List LogFile) :
    ∀ acc : List Int × List (Int × List LogFile),
      (∀ u : Int, u ∈ acc.1 ↔ (lookupFiles acc.2 u).isSome) →
      ∀ t : Int, lookupFiles ((dirRest.foldl index_file acc).2) t =
        if t ∈ acc.1 then lookupFiles acc.2 t
        else (dirRest.find? (fun g => file_indexes t g)).map (fun g => [g]) := by
  induction dirRest with
  | nil =>
      intro acc hinv t
      by_cases ht : t ∈ acc.1
      · simp [ht]
      · have : lookupFiles acc.2 t = none := by
          cases hcase : lookupFiles acc.2 t with
          | none => rfl
          | some l => exact absurd ((hinv t).mpr (by simp [hcase])) ht
        simp [ht, this]
  | cons g rest ih =>
      intro acc hinv t
      simp only [List.foldl_cons]
      obtain ⟨hinv', hlook⟩ := index_file_lookup acc g hinv
      rw [ih (index_file acc g) hinv' t]
      have hmem : ∀ u : Int, u ∈ (index_file acc g).1 ↔
          (u ∈ acc.1 ∨ file_indexes u g = true) := by
        intro u
        rw [hinv' u, hlook u]
        by_cases hu : u ∈ acc.1
        · simp [hu, ← hinv u]
        · by_cases hfi : file_indexes u g = true
          · simp [hu, hfi]
          · simp [hu, hfi, ← hinv u]
      by_cases ht : t ∈ acc.1
      · rw [if_pos ((hmem t).mpr (Or.inl ht)), if_pos ht, hlook t]
        simp [ht]
      · by_cases hfi : file_indexes t g = true
        · rw [if_pos ((hmem t).mpr (Or.inr hfi)), if_neg ht, hlook t]
          rw [List.find?_cons_of_pos _ hfi]
          simp [ht, hfi]
        · have hnot : t ∉ (index_file acc g).1 := by
            intro hc
            rcases (hmem t).mp hc with h | h
            · exact ht h
            · exact hfi h
          rw [if_neg hnot, if_neg ht, List.find?_cons_of_neg _ (by simpa using hfi)]

/-- The `_type_id_to_files` index built by `get_available_items` maps a type
id to the singleton list holding the first file that indexes it, or to
nothing. -/
theorem lookup_build_type_id_index (dir : List LogFile) (t : Int) :
    lookupFiles (build_type_id_index dir) t =
      (dir.find? (fun g => file_indexes t g)).map (fun g => [g]) := by
  unfold build_type_id_index
  rw [build_fold_lookup dir ([], []) (by intro u; simp [lookupFiles]) t]
  simp [lookupFiles]

/-- C10.  After `get_available_items` runs, `_type_id_to_files` maps every
type id to at most one file, namely the first file (in discovery order) whose
first five rows carry that id - even when the id occurs in several files;
consequently a `parse_logs_for_type_id` call served by such a singleton index
entry reads orders from that single file only, so orders in the other files
holding the same id are never merged in or deduplicated against. -/
theorem claim_C10_index_single_file (dir : List LogFile) (tid : Int) :
    lookupFiles (build_type_id_index dir) tid =
      (dir.find? (fun g => file_indexes tid g)).map (fun g => [g]) ∧
    ∀ f : LogFile, lookupFiles (build_type_id_index dir) tid = some [f] →
      parse_logs_for_type_id (build_type_id_index dir) dir tid =
        .ok (dedup_orders ((parse_log_file f).filter (fun o => o.type_id == tid))) := by
  refine ⟨lookup_build_type_id_index dir tid, fun f hf => ?_⟩
  simp [parse_logs_for_type_id, hf]

/-- Witness for C10: with both Pyerite files indexed, the index maps type 35
to the first file only, and the indexed lookup returns only that file's stale
order 700 at price 3, ignoring the newer price-4 snapshot in the second
file. -/
theorem claim_C10_index_single_file_witness :
    parse_logs_for_type_id (build_type_id_index pyeDir) pyeDir 35 = .ok [pyeOrder1] := by
  have h := (claim_C10_index_single_file pyeDir 35).2 pyeFile1 (by decide)
  rw [h]
  decide

/-- With the depth budget exhausted (`max_depth <= 0`), the resolver returns
`None` for an unknown item and a market leaf for a known one, blueprint or
not (production_service.py lines 145-179). -/
theorem gmd_nonpos_depth (db : Db) (item_id quantity me_level te_level : Int)
    (facility_bonus : Rat) (max_depth : Int) (ignore_items : List Int)
    (hd : max_depth ≤ 0) :
    get_manufacturing_details db item_id quantity me_level te_level facility_bonus
        max_depth ignore_items =
      (find_item db.items item_id).map
        (fun item => market_node db item_id item.name quantity) := by
  rw [get_manufacturing_details.eq_def]
  cases hfi : find_item db.items item_id with
  | none => simp
  | some item =>
      cases hbp : find_manufacturing_blueprint db item_id with
      | none => simp
      | some bp => simp [dif_pos hd]

/-- C3.  For an item present in the catalog, resolving with `max_depth = 0`
yields exactly the market leaf - no materials, buy/sell prices straight from
the market statistics, production cost equal to the market buy price - even
when a manufacturing blueprint for the item exists. -/
theorem claim_C3_depth_zero_leaf (db : Db) (item_id quantity me_level te_level : Int)
    (facility_bonus : Rat) (ignore_items : List Int) (item : Item)
    (hitem : find_item db.items item_id = some item) :
    get_manufacturing_details db item_id quantity me_level te_level facility_bonus
        0 ignore_items = some (market_node db item_id item.name quantity) ∧
    (market_node db item_id item.name quantity).materials = [] ∧
    (market_node db item_id item.name quantity).buy_price =
      (db.market_stats item_id).buy_price ∧
    (market_node db item_id item.name quantity).sell_price =
      (db.market_stats item_id).sell_price ∧
    (market_node db item_id item.name quantity).production_cost =
      (db.market_stats item_id).buy_price := by
  refine ⟨?_, rfl, rfl, rfl, rfl⟩
  rw [gmd_nonpos_depth db item_id quantity me_level te_level facility_bonus 0
    ignore_items le_rfl, hitem]
  rfl

/-- Witness for C3: `Hull` has a manufacturing blueprint in `hullDb`, yet
depth 0 yields its market leaf. -/
theorem claim_C3_depth_zero_leaf_witness :
    get_manufacturing_details hullDb 1 2 0 0 0 0 [] =
      some (market_node hullDb 1 (Item.mk 1 "Hull").name 2) ∧
    (market_node hullDb 1 (Item.mk 1 "Hull").name 2).materials = [] ∧
    (market_node hullDb 1 (Item.mk 1 "Hull").name 2).buy_price =
      (hullDb.market_stats 1).buy_price ∧
    (market_node hullDb 1 (Item.mk 1 "Hull").name 2).sell_price =
      (hullDb.market_stats 1).sell_price ∧
    (market_node hullDb 1 (Item.mk 1 "Hull").name 2).production_cost =
      (hullDb.market_stats 1).buy_price :=
  claim_C3_depth_zero_leaf hullDb 1 2 0 0 0 [] (Item.mk 1 "Hull") rfl

/-- C7 (corrected).  The resolver validates nothing and never raises: with a
negative `max_depth` (and any quantity, negative included) it simply returns
the market leaf for a known item, or `None` for an unknown one; the guarded
division (`if quantity > 0`) keeps even the cost computation total. -/
theorem claim_C7_no_raise (db : Db) (item_id quantity me_level te_level : Int)
    (facility_bonus : Rat) (max_depth : Int) (ignore_items : List Int)
    (hd : max_depth < 0) :
    get_manufacturing_details db item_id quantity me_level te_level facility_bonus
        max_depth ignore_items =
      (find_item db.items item_id).map
        (fun item => market_node db item_id item.name quantity) :=
  gmd_nonpos_depth db item_id quantity me_level te_level facility_bonus
    max_depth ignore_items (le_of_lt hd)

/-- Witness for C7 (amended) at depth -2 and quantity 5. -/
theorem claim_C7_no_raise_witness :
    get_manufacturing_details gadgetDb 1 5 0 0 0 (-2) [] =
      (find_item gadgetDb.items 1).map
        (fun item => market_node gadgetDb 1 item.name 5) :=
  claim_C7_no_raise gadgetDb 1 5 0 0 0 (-2) [] (by norm_num)

/-- Counterexample to C7 as stated: the claim demands an exception on
negative quantity or negative depth, but the source has no raise path (its
one division is guarded by `if quantity > 0`), so the embedding is total: at
quantity -4 and depth -1 the resolver returns a normal market-leaf result
instead of raising. -/
theorem claim_C7_counterexample :
    get_manufacturing_details gadgetDb 1 (-4) 0 0 0 (-1) [] =
      some (market_node gadgetDb 1 "Gadget" (-4)) := by
  rw [get_manufacturing_details.eq_def]
  norm_num [gadgetDb, find_item, find_manufacturing_blueprint, count_products,
    find_product, find_blueprint_row]

theorem nodeHeightList_le (l : List ProductionChainNode) (k : Nat)
    (h : ∀ x ∈ l, nodeHeight x ≤ k) : nodeHeightList l ≤ k := by
  induction l with
  | nil => simp [nodeHeightList]
  | cons n ns ih =>
      rw [nodeHeightList]
      exact max_le (h n (List.mem_cons_self _ _))
        (ih fun x hx => h x (List.mem_cons_of_mem _ hx))

/-- Any tree the resolver returns has height at most `max_depth.toNat + 1`:
each recursive expansion decrements `max_depth`, and a non-positive budget
forces a leaf. -/
theorem gmd_height_aux (k : Nat) :
    ∀ (db : Db) (item_id quantity me_level te_level : Int) (facility_bonus : Rat)
      (max_depth : Int) (ignore_items : List Int) (n : ProductionChainNode),
      max_depth.toNat ≤ k →
      get_manufacturing_details db item_id quantity me_level te_level facility_bonus
        max_depth ignore_items = some n →
      nodeHeight n ≤ max_depth.toNat + 1 := by
  induction k with
  | zero =>
      intro db i q me te fb d ig n hk h
      rw [gmd_nonpos_depth db i q me te fb d ig (by omega)] at h
      cases hfi : find_item db.items i with
      | none => rw [hfi] at h; simp at h
      | some item =>
          rw [hfi] at h
          simp only [Option.map_some', Option.some.injEq] at h
          rw [← h, market_node, nodeHeight.eq_1, nodeHeightList]
          omega
  | succ k ih =>
      intro db i q me te fb d ig n hk h
      by_cases hd : d ≤ 0
      · rw [gmd_nonpos_depth db i q me te fb d ig hd] at h
        cases hfi : find_item db.items i with
        | none => rw [hfi] at h; simp at h
        | some item =>
            rw [hfi] at h
            simp only [Option.map_some', Option.some.injEq] at h
            rw [← h, market_node, nodeHeight.eq_1, nodeHeightList]
            omega
      · rw [get_manufacturing_details.eq_def] at h
        cases hfi : find_item db.items i with
        | none => rw [hfi] at h; simp at h
        | some item =>
            rw [hfi] at h
            dsimp only at h
            cases hbp : find_manufacturing_blueprint db i with
            | none =>
                rw [hbp] at h
                dsimp only at h
                simp only [Option.some.injEq] at h
                rw [← h, market_node, nodeHeight.eq_1, nodeHeightList]
                omega
            | some bp =>
                rw [hbp] at h
                dsimp only at h
                rw [dif_neg hd] at h
                cases hact : get_manufacturing_activity db bp.id with
                | none => rw [hact] at h; simp at h
                | some act =>
                    rw [hact] at h
                    dsimp only at h
                    simp only [Option.some.injEq] at h
                    rw [← h, nodeHeight.eq_1]
                    have h1 : ∀ L : List ProductionChainNode,
                        (∀ x ∈ L, nodeHeight x ≤ d.toNat) →
                        1 + nodeHeightList L ≤ d.toNat + 1 := by
                      intro L hL
                      have := nodeHeightList_le L _ hL
                      omega
                    apply h1
                    intro x hx
                    by_cases hcond : 0 < d ∧ i ∉ ig
                    · rw [if_pos hcond] at hx
                      obtain ⟨mat, hmat, hfm⟩ := List.mem_filterMap.mp hx
                      by_cases hmm : mat.material_id ∈ insertItem ig i
                      · rw [if_pos hmm] at hfm
                        cases hfm
                      · rw [if_neg hmm] at hfm
                        have hrec := ih db mat.material_id
                          (total_quantity mat.quantity me q) me te fb (d - 1)
                          (insertItem ig i) x (by omega) hfm
                        have : (d - 1).toNat + 1 ≤ d.toNat := by omega
                        omega
                    · rw [if_neg hcond] at hx
                      exact absurd hx (List.not_mem_nil x)

/-- C2.  For every catalog - cyclic recipe graphs included - and every finite
`max_depth`, the resolver terminates (it is a total function in this
embedding, defined by recursion on the strictly decreasing depth budget,
with visited items not re-expanded) and returns a tree of bounded size: any
returned tree has height at most `max_depth.toNat + 1`. -/
theorem claim_C2_cycle_bound (db : Db) (item_id quantity me_level te_level : Int)
    (facility_bonus : Rat) (max_depth : Int) (ignore_items : List Int)
    (n : ProductionChainNode)
    (h : get_manufacturing_details db item_id quantity me_level te_level
      facility_bonus max_depth ignore_items = some n) :
    nodeHeight n ≤ max_depth.toNat + 1 :=
  gmd_height_aux max_depth.toNat db item_id quantity me_level te_level
    facility_bonus max_depth ignore_items n le_rfl h

/-- Witness for C2 on the cyclic catalog `CycleA → CycleB → CycleA` at depth
5: the resolver returns the finite two-node tree `cycTreeA`, of height far
below the bound 6. -/
theorem claim_C2_cycle_bound_witness : nodeHeight cycTreeA ≤ (5 : Int).toNat + 1 :=
  claim_C2_cycle_bound cycDb 1 1 0 0 0 5 [] cycTreeA (by
    have h2 : find_item cycDb.items 2 = some ⟨2, "CycleB"⟩ := rfl
    have h4 : find_manufacturing_blueprint cycDb 2 = some ⟨11, "CycleB Blueprint"⟩ := rfl
    have h6 : get_manufacturing_activity cycDb 11 =
      some ⟨101, 11, "manufacturing", 300⟩ := rfl
    have h8 : get_blueprint_materials cycDb 11 = [⟨11, 1, 2⟩] := rfl
    have h9 : ∀ i : Int, cycDb.market_stats i = ⟨2, 3⟩ := fun _ => rfl
    have hB : get_manufacturing_details cycDb 2 3 0 0 0 4 [1] = some cycTreeB := by
      rw [get_manufacturing_details.eq_def]
      norm_num [h2, h4, h6, h8, h9, cycTreeB, insertItem, total_quantity,
        adjusted_quantity, adjusted_time, pyOrRat, pyInt,
        List.filterMap_cons, List.foldl_cons, List.foldl_nil]
    have h1 : find_item cycDb.items 1 = some ⟨1, "CycleA"⟩ := rfl
    have h3 : find_manufacturing_blueprint cycDb 1 = some ⟨10, "CycleA Blueprint"⟩ := rfl
    have h5 : get_manufacturing_activity cycDb 10 =
      some ⟨100, 10, "manufacturing", 600⟩ := rfl
    have h7 : get_blueprint_materials cycDb 10 = [⟨10, 2, 3⟩] := rfl
    rw [get_manufacturing_details.eq_def]
    norm_num [h1, h3, h5, h7, h9, hB, cycTreeA, cycTreeB, insertItem, total_quantity,
      adjusted_quantity, adjusted_time, pyOrRat, pyInt,
      ProductionChainNode.production_cost, ProductionChainNode.buy_price,
      ProductionChainNode.quantity, List.filterMap_cons, List.filterMap_nil,
      List.foldl_cons, List.foldl_nil])

/-- C4 (corrected).  For a resolver node with children and positive
quantity, the per-unit production cost is the sum over children of
`(child.production_cost if nonzero else child.buy_price if nonzero else 0) *
child.quantity` (the child's quantity already carrying the parent scaling),
divided by the parent's quantity; the child's own production cost is used
only when it is nonzero - Python `or` treats a zero Decimal as falsy - so a
composite child whose rolled-up cost is zero contributes its market buy
price instead. -/
theorem claim_C4_cost_rollup (db : Db) (item_id quantity me_level te_level : Int)
    (facility_bonus : Rat) (max_depth : Int) (ignore_items : List Int)
    (n : ProductionChainNode)
    (h : get_manufacturing_details db item_id quantity me_level te_level
      facility_bonus max_depth ignore_items = some n)
    (hm : n.materials ≠ []) (hq : 0 < n.quantity) :
    n.production_cost =
      (n.materials.foldl (fun acc mn =>
        acc + pyOrRat mn.production_cost (pyOrRat mn.buy_price 0) * (mn.quantity : Rat))
        0) / (n.quantity : Rat) := by
  by_cases hd : max_depth ≤ 0
  · rw [gmd_nonpos_depth db item_id quantity me_level te_level facility_bonus
      max_depth ignore_items hd] at h
    cases hfi : find_item db.items item_id with
    | none => rw [hfi] at h; simp at h
    | some item =>
        rw [hfi] at h
        simp only [Option.map_some', Option.some.injEq] at h
        rw [← h] at hm
        simp [market_node, ProductionChainNode.materials] at hm
  · rw [get_manufacturing_details.eq_def] at h
    cases hfi : find_item db.items item_id with
    | none => rw [hfi] at h; simp at h
    | some item =>
        rw [hfi] at h
        dsimp only at h
        cases hbp : find_manufacturing_blueprint db item_id with
        | none =>
            rw [hbp] at h
            dsimp only at h
            simp only [Option.some.injEq] at h
            rw [← h] at hm
            simp [market_node, ProductionChainNode.materials] at hm
        | some bp =>
            rw [hbp] at h
            dsimp only at h
            rw [dif_neg hd] at h
            cases hact : get_manufacturing_activity db bp.id with
            | none => rw [hact] at h; simp at h
            | some act =>
                rw [hact] at h
                dsimp only at h
                simp only [Option.some.injEq] at h
                rw [← h] at hm hq ⊢
                simp only [ProductionChainNode.materials,
                  ProductionChainNode.production_cost,
                  ProductionChainNode.quantity] at hm hq ⊢
                rw [if_pos hq, if_neg (by simpa [List.isEmpty_iff] using hm)]

/-- Witness for C4 (amended) reproducing the specification's example:
`Root <- 2 x MaterialA` (leaf buy price 10) at quantity 3 yields the tree
`rootTree` with per-unit production cost (10 * 6) / 3 = 20. -/
theorem claim_C4_cost_rollup_witness :
    rootTree.production_cost =
      (rootTree.materials.foldl (fun acc mn =>
        acc + pyOrRat mn.production_cost (pyOrRat mn.buy_price 0) * (mn.quantity : Rat))
        0) / (rootTree.quantity : Rat) :=
  claim_C4_cost_rollup rootDb 1 3 0 0 0 2 [] rootTree
    (by
      have ha1 : find_item rootDb.items 2 = some ⟨2, "MaterialA"⟩ := rfl
      have ha2 : find_manufacturing_blueprint rootDb 2 = none := rfl
      have ha3 : rootDb.market_stats 2 = ⟨10, 11⟩ := rfl
      have hA : get_manufacturing_details rootDb 2 6 0 0 0 1 [1] = some rootLeafA := by
        rw [get_manufacturing_details.eq_def]
        norm_num [ha1, ha2, ha3, market_node, rootLeafA]
      have h1 : find_item rootDb.items 1 = some ⟨1, "Root"⟩ := rfl
      have h3 : find_manufacturing_blueprint rootDb 1 = some ⟨40, "Root Blueprint"⟩ := rfl
      have h5 : get_manufacturing_activity rootDb 40 =
        some ⟨400, 40, "manufacturing", 100⟩ := rfl
      have h7 : get_blueprint_materials rootDb 40 = [⟨40, 2, 2⟩] := rfl
      have h9 : rootDb.market_stats 1 = ⟨25, 30⟩ := rfl
      rw [get_manufacturing_details.eq_def]
      norm_num [h1, h3, h5, h7, h9, hA, rootTree, rootLeafA, insertItem,
        total_quantity, adjusted_quantity, adjusted_time, pyOrRat, pyInt,
        ProductionChainNode.production_cost, ProductionChainNode.buy_price,
        ProductionChainNode.quantity, List.filterMap_cons, List.filterMap_nil,
        List.foldl_cons, List.foldl_nil])
    (by simp [rootTree, ProductionChainNode.materials])
    (by norm_num [rootTree, ProductionChainNode.quantity])

/-- Counterexample to C4 as stated: in `rollupDb`, the root's only child
`Mid` has children and rolled-up production cost 0, so the claim's formula
gives (0 * 1) / 1 = 0 for the root, but the code - whose `or` chain skips a
zero production cost - uses the child's buy price 7 and produces 7. -/
theorem claim_C4_counterexample :
    (get_manufacturing_details rollupDb 1 1 0 0 0 3 []).map
        (fun n => (n.production_cost, n.quantity,
          n.materials.map (fun c =>
            (c.production_cost, c.buy_price, c.quantity, c.materials.length)))) =
      some (7, 1, [(0, 7, 1, 1)]) ∧
    (7 : Rat) ≠ 0 * (1 : Rat) / 1 := by
  constructor
  · have hb1 : find_item rollupDb.items 3 = some ⟨3, "Base"⟩ := rfl
    have hb2 : find_manufacturing_blueprint rollupDb 3 = none := rfl
    have hb3 : rollupDb.market_stats 3 = ⟨0, 0⟩ := rfl
    have hBase : get_manufacturing_details rollupDb 3 1 0 0 0 1 [2, 1] =
        some (.mk 3 "Base" 1 none none none [] 0 0 0 none) := by
      rw [get_manufacturing_details.eq_def]
      norm_num [hb1, hb2, hb3, market_node]
    have hm1 : find_item rollupDb.items 2 = some ⟨2, "Mid"⟩ := rfl
    have hm3 : find_manufacturing_blueprint rollupDb 2 = some ⟨31, "Mid Blueprint"⟩ := rfl
    have hm5 : get_manufacturing_activity rollupDb 31 =
      some ⟨301, 31, "manufacturing", 60⟩ := rfl
    have hm7 : get_blueprint_materials rollupDb 31 = [⟨31, 3, 1⟩] := rfl
    have hm9 : rollupDb.market_stats 2 = ⟨7, 8⟩ := rfl
    have hMid : get_manufacturing_details rollupDb 2 1 0 0 0 2 [1] =
        some (.mk 2 "Mid" 1 (some 31) (some 301) (some "manufacturing")
          [.mk 3 "Base" 1 none none none [] 0 0 0 none] 7 8 0 (some 60)) := by
      rw [get_manufacturing_details.eq_def]
      norm_num [hm1, hm3, hm5, hm7, hm9, hBase, insertItem, total_quantity,
        adjusted_quantity, adjusted_time, pyOrRat, pyInt,
        ProductionChainNode.production_cost, ProductionChainNode.buy_price,
        ProductionChainNode.quantity, List.filterMap_cons, List.filterMap_nil,
        List.foldl_cons, List.foldl_nil]
    have hr1 : find_item rollupDb.items 1 = some ⟨1, "Root"⟩ := rfl
    have hr3 : find_manufacturing_blueprint rollupDb 1 = some ⟨30, "Root Blueprint"⟩ := rfl
    have hr5 : get_manufacturing_activity rollupDb 30 =
      some ⟨300, 30, "manufacturing", 60⟩ := rfl
    have hr7 : get_blueprint_materials rollupDb 30 = [⟨30, 2, 1⟩] := rfl
    have hr9 : rollupDb.market_stats 1 = ⟨9, 12⟩ := rfl
    rw [get_manufacturing_details.eq_def]
    norm_num [hr1, hr3, hr5, hr7, hr9, hMid, insertItem, total_quantity,
      adjusted_quantity, adjusted_time, pyOrRat, pyInt,
      ProductionChainNode.production_cost, ProductionChainNode.buy_price,
      ProductionChainNode.quantity, ProductionChainNode.materials,
      ProductionChainNode.item_id, List.filterMap_cons, List.filterMap_nil,
      List.foldl_cons, List.foldl_nil, List.map_cons, List.map_nil]
  · norm_num

/-- C8 (corrected).  The visited set does not accumulate across the material
loop: every sibling material is resolved against the same set
`ignore_items ∪ {item_id}` (the source adds only the current item before the
loop and never a material id inside it), so a material id listed twice as
direct siblings is recursed into twice - both occurrences are expanded with
the identical visited set, and the second is not treated as already
visited. -/
theorem claim_C8_sibling_dup (db : Db) (item_id quantity me_level te_level : Int)
    (facility_bonus : Rat) (max_depth : Int) (ignore_items : List Int)
    (item : Item) (bp : Blueprint) (act : BlueprintActivity) (m : BlueprintMaterial)
    (hitem : find_item db.items item_id = some item)
    (hbp : find_manufacturing_blueprint db item_id = some bp)
    (hd : ¬ max_depth ≤ 0)
    (hact : get_manufacturing_activity db bp.id = some act)
    (hig : item_id ∉ ignore_items)
    (hmats : get_blueprint_materials db bp.id = [m, m])
    (hmem : m.material_id ∉ insertItem ignore_items item_id) :
    (get_manufacturing_details db item_id quantity me_level te_level facility_bonus
        max_depth ignore_items).map ProductionChainNode.materials =
      some ((get_manufacturing_details db m.material_id
          (total_quantity m.quantity me_level quantity) me_level te_level
          facility_bonus (max_depth - 1) (insertItem ignore_items item_id)).toList ++
        (get_manufacturing_details db m.material_id
          (total_quantity m.quantity me_level quantity) me_level te_level
          facility_bonus (max_depth - 1) (insertItem ignore_items item_id)).toList) := by
  rw [get_manufacturing_details.eq_def, hitem]
  dsimp only
  rw [hbp]
  dsimp only
  rw [dif_neg hd, hact]
  dsimp only
  rw [hmats, if_pos ⟨by omega, hig⟩]
  cases hrec : get_manufacturing_details db m.material_id
      (total_quantity m.quantity me_level quantity) me_level te_level
      facility_bonus (max_depth - 1) (insertItem ignore_items item_id) with
  | none =>
      simp [List.filterMap_cons, if_neg hmem, hrec, ProductionChainNode.materials]
  | some r =>
      simp [List.filterMap_cons, if_neg hmem, hrec, ProductionChainNode.materials]

/-- Witness for C8 (amended) on `dupDb`, whose Assembly blueprint lists
Widget twice. -/
theorem claim_C8_sibling_dup_witness :
    (get_manufacturing_details dupDb 1 1 0 0 0 3 []).map ProductionChainNode.materials =
      some ((get_manufacturing_details dupDb 2 (total_quantity 1 0 1) 0 0 0 (3 - 1)
          (insertItem [] 1)).toList ++
        (get_manufacturing_details dupDb 2 (total_quantity 1 0 1) 0 0 0 (3 - 1)
          (insertItem [] 1)).toList) :=
  claim_C8_sibling_dup dupDb 1 1 0 0 0 3 [] ⟨1, "Assembly"⟩ ⟨60, "Assembly Blueprint"⟩
    ⟨600, 60, "manufacturing", 60⟩ ⟨60, 2, 1⟩ rfl rfl (by norm_num) rfl
    (by simp) rfl (by decide)

/-- Counterexample to C8 as stated: resolving Assembly (whose blueprint
lists Widget twice as direct siblings) yields two Widget children, each
itself expanded into its Scrap material - the second occurrence was recursed
into, not treated as already visited. -/
theorem claim_C8_counterexample :
    (get_manufacturing_details dupDb 1 1 0 0 0 3 []).map
        (fun n => n.materials.map (fun c => (c.item_id, c.materials.length))) =
      some [(2, 1), (2, 1)] := by
  have hs1 : find_item dupDb.items 3 = some ⟨3, "Scrap"⟩ := rfl
  have hs2 : find_manufacturing_blueprint dupDb 3 = none := rfl
  have hs3 : dupDb.market_stats 3 = ⟨4, 5⟩ := rfl
  have hScrap : get_manufacturing_details dupDb 3 1 0 0 0 1 [2, 1] =
      some (.mk 3 "Scrap" 1 none none none [] 4 5 4 none) := by
    rw [get_manufacturing_details.eq_def]
    norm_num [hs1, hs2, hs3, market_node]
  have hw1 : find_item dupDb.items 2 = some ⟨2, "Widget"⟩ := rfl
  have hw3 : find_manufacturing_blueprint dupDb 2 = some ⟨61, "Widget Blueprint"⟩ := rfl
  have hw5 : get_manufacturing_activity dupDb 61 =
    some ⟨601, 61, "manufacturing", 60⟩ := rfl
  have hw7 : get_blueprint_materials dupDb 61 = [⟨61, 3, 1⟩] := rfl
  have hw9 : dupDb.market_stats 2 = ⟨4, 5⟩ := rfl
  have hWidget : get_manufacturing_details dupDb 2 1 0 0 0 2 [1] =
      some (.mk 2 "Widget" 1 (some 61) (some 601) (some "manufacturing")
        [.mk 3 "Scrap" 1 none none none [] 4 5 4 none] 4 5 4 (some 60)) := by
    rw [get_manufacturing_details.eq_def]
    norm_num [hw1, hw3, hw5, hw7, hw9, hScrap, insertItem, total_quantity,
      adjusted_quantity, adjusted_time, pyOrRat, pyInt,
      ProductionChainNode.production_cost, ProductionChainNode.buy_price,
      ProductionChainNode.quantity, List.filterMap_cons, List.filterMap_nil,
      List.foldl_cons, List.foldl_nil]
  have ha1 : find_item dupDb.items 1 = some ⟨1, "Assembly"⟩ := rfl
  have ha3 : find_manufacturing_blueprint dupDb 1 = some ⟨60, "Assembly Blueprint"⟩ := rfl
  have ha5 : get_manufacturing_activity dupDb 60 =
    some ⟨600, 60, "manufacturing", 60⟩ := rfl
  have ha7 : get_blueprint_materials dupDb 60 = [⟨60, 2, 1⟩, ⟨60, 2, 1⟩] := rfl
  have ha9 : dupDb.market_stats 1 = ⟨4, 5⟩ := rfl
  rw [get_manufacturing_details.eq_def]
  norm_num [ha1, ha3, ha5, ha7, ha9, hWidget, insertItem, total_quantity,
    adjusted_quantity, adjusted_time, pyOrRat, pyInt,
    ProductionChainNode.production_cost, ProductionChainNode.buy_price,
    ProductionChainNode.quantity, ProductionChainNode.materials,
    ProductionChainNode.item_id, List.filterMap_cons, List.filterMap_nil,
    List.foldl_cons, List.foldl_nil, List.map_cons, List.map_nil]
